import Mathlib

/-!
Shallow embedding of the switch-vlan-doc aggregation pipeline
(src/main.rs, src/snmp_utils.rs, src/output.rs, src/html_output.rs).

Rust `HashSet<u32>` becomes `Finset Nat` (HashSet equality is set
equality), `HashMap<u32, T>` becomes an association list `List (Nat × T)`
queried with `List.lookup` (HashMap keys are unique in the source, so the
first match is the match), and `Vec<T>` becomes `List T`.  Bytes are `Nat`
values below 256.  `decode_port_list` in the source renders the port list
as a comma-separated decimal string which `port_in_list` immediately
splits and re-parses; since decimal rendering and parsing of distinct
naturals round-trip, the string detour is embedded directly as the list
of decoded port numbers.
-/

namespace SwitchVlanDoc

/-- `LacpInfo` from src/main.rs: selected aggregate id, optional aggregate
display name, optional (tagged, untagged) VLAN-set pair. -/
structure LacpInfo where
  selected_agg_id : Nat
  agg_name : Option String
  agg_vlans : Option (Finset Nat × Finset Nat)
  deriving DecidableEq

/-- `PortConfig` from src/main.rs. -/
structure PortConfig where
  port_num : Nat
  alias' : Option String
  pvid : Nat
  vlan_memberships : Finset Nat
  untagged_vlans : Finset Nat
  lacp_info : Option LacpInfo
  deriving DecidableEq

/-- `LacpOverride` from src/main.rs: source interface id and target ports. -/
structure LacpOverride where
  source_interface : Nat
  target_ports : List Nat
  deriving DecidableEq

/-- `PortRange` from src/main.rs. -/
structure PortRange where
  first_port : Nat
  last_port : Nat
  alias' : Option String
  pvid : Nat
  vlan_memberships : Finset Nat
  untagged_vlans : Finset Nat
  lacp_info : Option LacpInfo
  deriving DecidableEq

/-! ## Bitmask decoder (src/snmp_utils.rs, `decode_port_list`) -/

/-- Inner loop of `decode_port_list`: the ports contributed by the byte at
position `byte_index` (bit 0 is the most significant bit). -/
def decodeByte (byte_index : Nat) (byte : Nat) : List Nat :=
  (List.range 8).filterMap (fun bit_index =>
    if byte &&& (1 <<< (7 - bit_index)) ≠ 0 then
      some (byte_index * 8 + bit_index + 1)
    else none)

/-- Outer loop of `decode_port_list`, carrying the enumeration index. -/
def decodeFrom (byte_index : Nat) : List Nat → List Nat
  | [] => []
  | byte :: rest => decodeByte byte_index byte ++ decodeFrom (byte_index + 1) rest

/-- `decode_port_list` from src/snmp_utils.rs, as the list of decoded port
numbers (the source joins them into a decimal string; see the module
comment). -/
def decode_port_list (ports : List Nat) : List Nat :=
  decodeFrom 0 ports

/-- `port_in_list` from src/main.rs: membership of a port number in the
decoded port list. -/
def port_in_list (port_num : Nat) (ports_data : List Nat) : Bool :=
  (decode_port_list ports_data).contains port_num

/-! ## Table fetch value conversion (src/snmp_utils.rs) -/

/-- Raw SNMP value (src/snmp_utils.rs `SnmpValue`); octet-string payloads
are carried as already-decoded text (lossy UTF-8 decoding is outside the
scope of this development). -/
inductive SnmpValue where
  | bytes (s : String)
  | integer (n : Nat)
  deriving DecidableEq

/-- `get_string_table` conversion step from src/snmp_utils.rs: every entry
must be an octet string; an integer anywhere fails the whole table.  An
empty string is kept as an empty string (the collapsing variant
`get_optional_string_table` exists in the source but is not used for
aliases). -/
def get_string_table (t : List (Nat × SnmpValue)) : Except String (List (Nat × String)) :=
  t.mapM (fun kv => match kv.2 with
    | .bytes s => .ok (kv.1, s)
    | .integer _ => .error "Expected string (OctetString) value but got integer")

/-! ## Config builder (src/main.rs, main, lines 190-251) -/

/-- `is_physical_port` from src/main.rs.  The device identity argument is
present in the source signature (`_ip: &str`) but unused in the body. -/
def is_physical_port (port_type : Nat) (_ip : String) : Bool :=
  port_type == 6 || port_type == 117

/-- Alias selection for one port (src/main.rs lines 200-203): the fetched
alias is kept unless it equals the decimal rendering of the port number. -/
def build_alias (port_aliases : List (Nat × String)) (port_num : Nat) : Option String :=
  (port_aliases.lookup port_num).filter (fun a => a != toString port_num)

/-- The set of VLAN ids whose bitmask contains the given interface
(src/main.rs: the `for (vlan_id, ports_data) in &table` insert loops). -/
def vlansContaining (iface : Nat) (table : List (Nat × List Nat)) : Finset Nat :=
  ((table.filter (fun kv => port_in_list iface kv.2)).map Prod.fst).toFinset

/-! ## Aggregate resolver (src/main.rs lines 163-188 and 227-241) -/

/-- The `lag_vlan_info` map of src/main.rs lines 163-188, as a lookup
function: for an aggregate id selected by some port and greater than zero,
the (tagged, untagged) pair computed from the VLAN bitmasks, stored only
when at least one of the two sets is non-empty. -/
def lag_vlan_info (lag_selected_agg_ids : List (Nat × Nat))
    (vlan_egress_ports vlan_untagged_ports : List (Nat × List Nat))
    (agg_id : Nat) : Option (Finset Nat × Finset Nat) :=
  if (lag_selected_agg_ids.map Prod.snd).contains agg_id ∧ agg_id > 0 then
    let tagged := vlansContaining agg_id vlan_egress_ports
    let untagged := vlansContaining agg_id vlan_untagged_ports
    if ¬tagged = ∅ ∨ ¬untagged = ∅ then some (tagged, untagged) else none
  else none

/-- Natural LACP resolution for one port (src/main.rs lines 227-241). -/
def build_lacp_info (lag_selected_agg_ids : List (Nat × Nat))
    (lag_agg_names : List (Nat × String))
    (vlan_egress_ports vlan_untagged_ports : List (Nat × List Nat))
    (port_num : Nat) : Option LacpInfo :=
  match lag_selected_agg_ids.lookup port_num with
  | some selected_agg_id =>
    if selected_agg_id > 0 then
      some { selected_agg_id := selected_agg_id,
             agg_name := lag_agg_names.lookup selected_agg_id,
             agg_vlans := lag_vlan_info lag_selected_agg_ids
               vlan_egress_ports vlan_untagged_ports selected_agg_id }
    else none
  | none => none

/-- One `PortConfig` assembled from the table snapshots (src/main.rs lines
199-251, body of the per-port loop). -/
def build_port_config (port_aliases : List (Nat × String))
    (port_vlans : List (Nat × Nat))
    (vlan_egress_ports vlan_untagged_ports : List (Nat × List Nat))
    (lag_selected_agg_ids : List (Nat × Nat))
    (lag_agg_names : List (Nat × String))
    (port_num : Nat) : PortConfig :=
  { port_num := port_num,
    alias' := build_alias port_aliases port_num,
    pvid := (port_vlans.lookup port_num).getD 0,
    vlan_memberships := vlansContaining port_num vlan_egress_ports,
    untagged_vlans := vlansContaining port_num vlan_untagged_ports,
    lacp_info := build_lacp_info lag_selected_agg_ids lag_agg_names
      vlan_egress_ports vlan_untagged_ports port_num }

/-- The full per-port loop of src/main.rs lines 193-251: non-physical
interface types are skipped (missing type defaults to 0), the rest are
assembled into `PortConfig` records. -/
def build_port_configs (ip : String) (port_indices : List Nat)
    (port_types : List (Nat × Nat))
    (port_aliases : List (Nat × String))
    (port_vlans : List (Nat × Nat))
    (vlan_egress_ports vlan_untagged_ports : List (Nat × List Nat))
    (lag_selected_agg_ids : List (Nat × Nat))
    (lag_agg_names : List (Nat × String)) : List PortConfig :=
  (port_indices.filter
      (fun p => is_physical_port ((port_types.lookup p).getD 0) ip)).map
    (build_port_config port_aliases port_vlans vlan_egress_ports
      vlan_untagged_ports lag_selected_agg_ids lag_agg_names)

/-! ## Override applier (src/main.rs lines 97-115 and 253-284) -/

/-- Rust `str::split(sep)` on a character: every occurrence of the
separator starts a new field, the empty string has one empty field.  The
override strings are embedded as character lists so that the parser is a
structurally recursive executable function. -/
def split_char (sep : Char) : List Char → List (List Char)
  | [] => [[]]
  | c :: rest =>
    if c = sep then [] :: split_char sep rest
    else
      match split_char sep rest with
      | [] => [[c]]
      | f :: fs => (c :: f) :: fs

/-- Rust `str::parse::<u32>`: an optional leading plus sign followed by at
least one ASCII digit, with the value required to fit in 32 bits. -/
def parse_u32 (s : List Char) : Option Nat :=
  let digits := match s with
    | '+' :: rest => rest
    | _ => s
  if digits ≠ [] ∧ digits.all Char.isDigit then
    let n := digits.foldl (fun acc c => acc * 10 + (c.toNat - 48)) 0
    if n < 4294967296 then some n else none
  else none

/-- `parse_lacp_override` from src/main.rs: exactly two colon-separated
fields, a `u32` source interface and a comma-separated list of `u32`
target ports. -/
def parse_lacp_override (override_str : List Char) : Except String LacpOverride :=
  match split_char ':' override_str with
  | [src, tgts] =>
    match parse_u32 src with
    | none => .error "Invalid source interface number"
    | some source_interface =>
      match (split_char ',' tgts).mapM parse_u32 with
      | none => .error "Invalid target port number"
      | some target_ports =>
        .ok { source_interface := source_interface, target_ports := target_ports }
  | _ => .error "Invalid format. Expected: source_interface:target_ports"

/-- The override-collection loop of src/main.rs lines 127-134: each
malformed override string is warned about and dropped, the valid ones are
kept in order. -/
def parse_overrides (args : List (List Char)) : List LacpOverride :=
  args.foldl (fun acc s =>
    match parse_lacp_override s with
    | .ok o => acc ++ [o]
    | .error _ => acc) []

/-- Replace the first list element satisfying `p` (the
`iter_mut().find(...)` mutation of src/main.rs line 275). -/
def update_first (p : α → Bool) (f : α → α) : List α → List α
  | [] => []
  | x :: xs => if p x then f x :: xs else x :: update_first p f xs

/-- The per-target mutation of src/main.rs lines 275-282: the alias
becomes the source interface's fetched name and the LacpInfo becomes the
synthetic `Trk<id>` record carrying the computed pair. -/
def override_update (port_aliases : List (Nat × String)) (source_interface : Nat)
    (tagged_vlans untagged_vlans : Finset Nat) (c : PortConfig) : PortConfig :=
  { c with
    alias' := port_aliases.lookup source_interface,
    lacp_info := some
      { selected_agg_id := source_interface,
        agg_name := some ("Trk" ++ toString source_interface),
        agg_vlans := some (tagged_vlans, untagged_vlans) } }

/-- Application of one `LacpOverride` (src/main.rs lines 254-284): the
source interface's pair is computed from the VLAN bitmasks, then each
listed target port's config is rewritten. -/
def apply_override (vlan_egress_ports vlan_untagged_ports : List (Nat × List Nat))
    (port_aliases : List (Nat × String)) (o : LacpOverride)
    (port_configs : List PortConfig) : List PortConfig :=
  let tagged_vlans := vlansContaining o.source_interface vlan_egress_ports
  let untagged_vlans := vlansContaining o.source_interface vlan_untagged_ports
  o.target_ports.foldl
    (fun cfgs target_port =>
      update_first (fun c => c.port_num == target_port)
        (override_update port_aliases o.source_interface tagged_vlans untagged_vlans)
        cfgs)
    port_configs

/-- All overrides in declaration order (outer loop of src/main.rs line 254). -/
def apply_overrides (vlan_egress_ports vlan_untagged_ports : List (Nat × List Nat))
    (port_aliases : List (Nat × String)) (overrides : List LacpOverride)
    (port_configs : List PortConfig) : List PortConfig :=
  overrides.foldl
    (fun cfgs o => apply_override vlan_egress_ports vlan_untagged_ports port_aliases o cfgs)
    port_configs

/-! ## Final VLAN overlay (src/main.rs lines 286-294) -/

/-- The final overlay: whenever the LacpInfo carries a pair, the pair
replaces the port's own VLAN sets wholesale. -/
def apply_lacp_overlay (port_config : PortConfig) : PortConfig :=
  match port_config.lacp_info with
  | some lacp_info =>
    match lacp_info.agg_vlans with
    | some (tagged, untagged) =>
      { port_config with vlan_memberships := tagged, untagged_vlans := untagged }
    | none => port_config
  | none => port_config

/-! ## Range compressor (src/main.rs lines 300-358) -/

/-- The loop state of the range-compression pass: emitted ranges, the open
range's representative configuration (if any), and its bounds. -/
structure CompressState where
  port_ranges : List PortRange
  current_config : Option PortConfig
  current_start : Nat
  current_end : Nat
  deriving DecidableEq

/-- `configs_match` from src/main.rs lines 306-312: structural equality on
everything except the port number. -/
def configs_match (a b : PortConfig) : Bool :=
  a.pvid == b.pvid &&
  a.vlan_memberships == b.vlan_memberships &&
  a.untagged_vlans == b.untagged_vlans &&
  a.alias' == b.alias' &&
  a.lacp_info == b.lacp_info

/-- The `PortRange` pushed when a range is closed (src/main.rs lines
324-332 and 349-357). -/
def emit (start stop : Nat) (c : PortConfig) : PortRange :=
  { first_port := start,
    last_port := stop,
    alias' := c.alias',
    pvid := c.pvid,
    vlan_memberships := c.vlan_memberships,
    untagged_vlans := c.untagged_vlans,
    lacp_info := c.lacp_info }

/-- One iteration of the compression loop (src/main.rs lines 314-345). -/
def compress_step (st : CompressState) (config : PortConfig) : CompressState :=
  match st.current_config with
  | some current =>
    if configs_match current config && config.port_num == st.current_end + 1 then
      { st with current_end := config.port_num }
    else
      { port_ranges := st.port_ranges ++ [emit st.current_start st.current_end current],
        current_config := some config,
        current_start := config.port_num,
        current_end := config.port_num }
  | none =>
    { st with
      current_config := some config,
      current_start := config.port_num,
      current_end := config.port_num }

/-- The trailing emit after the loop (src/main.rs lines 347-358). -/
def compress_finish (st : CompressState) : List PortRange :=
  match st.current_config with
  | some current => st.port_ranges ++ [emit st.current_start st.current_end current]
  | none => st.port_ranges

/-- The whole range-compression pass over the (sorted) config list. -/
def compress_ranges (port_configs : List PortConfig) : List PortRange :=
  compress_finish (port_configs.foldl compress_step ⟨[], none, 0, 0⟩)

/-! ## Renderers (src/output.rs and src/html_output.rs)

Both renderers compute the same port/alias/VLAN/LACP cell texts (the
source duplicates the code; it is factored here) and differ in the row
markup and the skip-index bookkeeping. -/

/-- The VLAN display of one id (src/output.rs lines 57-65 et al.): VLAN 1
is bare, a named VLAN shows `name (id)`, an unnamed one is bare. -/
def format_vlan (vlan_names : List (Nat × String)) (vlan_id : Nat) : String :=
  if vlan_id == 1 then toString vlan_id
  else
    match vlan_names.lookup vlan_id with
    | some name => name ++ " (" ++ toString vlan_id ++ ")"
    | none => toString vlan_id

/-- The VLAN(s) cell of one range (src/output.rs lines 51-99): tagged and
untagged blocks, collapsed to a single entry when exactly one untagged
VLAN exists, at most one tagged VLAN exists and the PVID matches it. -/
def vlan_cell (vlan_names : List (Nat × String)) (r : PortRange) : String :=
  let tagged_sorted := r.vlan_memberships.sort (· ≤ ·)
  let untagged_sorted := r.untagged_vlans.sort (· ≤ ·)
  let vlan_info :=
    (if ¬r.vlan_memberships = ∅ then
      ["Tagged:[" ++ String.intercalate ", " (tagged_sorted.map (format_vlan vlan_names)) ++ "]"]
    else []) ++
    (if ¬r.untagged_vlans = ∅ then
      ["Untagged:[" ++ String.intercalate ", " (untagged_sorted.map (format_vlan vlan_names)) ++ "]"]
    else [])
  match untagged_sorted with
  | [v] =>
    if r.vlan_memberships.card ≤ 1 ∧ r.pvid = v then format_vlan vlan_names v
    else String.intercalate " " vlan_info
  | _ => String.intercalate " " vlan_info

/-- The Port cell (src/output.rs lines 42-46). -/
def port_cell (r : PortRange) : String :=
  if r.first_port == r.last_port then toString r.first_port
  else toString r.first_port ++ "-" ++ toString r.last_port

/-- The LACP cell (src/output.rs lines 102-107). -/
def lacp_cell (r : PortRange) : String :=
  match r.lacp_info with
  | some lacp_info => lacp_info.agg_name.getD "Unknown"
  | none => ""

/-- One markdown table row (src/output.rs lines 110-115). -/
def md_row (vlan_names : List (Nat × String)) (r : PortRange) : String :=
  "| " ++ port_cell r ++ " | " ++ (r.alias').getD "" ++ " | " ++
    vlan_cell vlan_names r ++ " | " ++ lacp_cell r ++ " |\n"

/-- The row loop of `generate_markdown_table` (src/output.rs lines 36-116):
ranges whose first port exceeds 52 are skipped. -/
def markdown_rows (vlan_names : List (Nat × String)) : List PortRange → List String
  | [] => []
  | r :: rest =>
    (if r.first_port > 52 then [] else [md_row vlan_names r]) ++
      markdown_rows vlan_names rest

/-- The full markdown table (src/output.rs lines 22-119); the timestamp is
an input. -/
def generate_markdown_table (vlan_names : List (Nat × String))
    (port_ranges : List PortRange) (timestamp : String) : String :=
  "Generated on: " ++ timestamp ++ "\n\n" ++
    "| Port | Alias | VLAN(s) | LACP |\n" ++
    "|------|-------|----------|------|\n" ++
    String.join (markdown_rows vlan_names port_ranges)

/-- The row classes of one HTML row (src/html_output.rs lines 211-242). -/
def html_row_classes (index : Nat) (r : PortRange) : List String :=
  (if r.first_port != r.last_port then ["multi-port"] else []) ++
  (match r.untagged_vlans.sort (· ≤ ·) with
   | [v] => if v == 10 then ["vlan-10"] else if v == 531 then ["vlan-531"] else []
   | _ => []) ++
  (if r.vlan_memberships.card > 1 then ["multi-tagged"] else []) ++
  (if r.lacp_info.isSome then ["lacp"] else []) ++
  (if index % 2 == 1 then ["even"] else [])

/-- One HTML table row (src/html_output.rs lines 244-262). -/
def html_row (vlan_names : List (Nat × String)) (index : Nat) (r : PortRange) : String :=
  let classes := html_row_classes index r
  let class_str :=
    if ¬classes = [] then " class=\"" ++ String.intercalate " " classes ++ "\"" else ""
  "        <tr" ++ class_str ++ ">\n            <td>" ++ port_cell r ++
    "</td>\n            <td>" ++ (r.alias').getD "" ++
    "</td>\n            <td>" ++ vlan_cell vlan_names r ++
    "</td>\n            <td>" ++ lacp_cell r ++ "</td>\n        </tr>"

/-- The row loop of the HTML renderer (src/html_output.rs lines 138-263):
ranges whose first port exceeds 52 are skipped, but the enumeration index
driving the even/odd striping advances over skipped ranges too. -/
def html_rows_from (vlan_names : List (Nat × String)) (index : Nat) :
    List PortRange → List String
  | [] => []
  | r :: rest =>
    (if r.first_port > 52 then [] else [html_row vlan_names index r]) ++
      html_rows_from vlan_names (index + 1) rest

/-- The HTML renderer's rows, indexed from zero. -/
def html_rows (vlan_names : List (Nat × String)) (port_ranges : List PortRange) :
    List String :=
  html_rows_from vlan_names 0 port_ranges

/-! ## Helper lemmas about the decoder -/

theorem mem_decodeByte {i b n : Nat} :
    n ∈ decodeByte i b ↔ ∃ k, k < 8 ∧ b &&& (1 <<< (7 - k)) ≠ 0 ∧ n = i * 8 + k + 1 := by
  simp only [decodeByte, List.mem_filterMap, List.mem_range]
  constructor
  · rintro ⟨k, hk, hsome⟩
    by_cases hbit : b &&& (1 <<< (7 - k)) ≠ 0
    · rw [if_pos hbit, Option.some.injEq] at hsome
      exact ⟨k, hk, hbit, hsome.symm⟩
    · simp [hbit] at hsome
  · rintro ⟨k, hk, hbit, hn⟩
    exact ⟨k, hk, by simp [hbit, hn]⟩

theorem mem_decodeFrom {n : Nat} :
    ∀ (bs : List Nat) (j : Nat),
      n ∈ decodeFrom j bs ↔
        ∃ i k, i < bs.length ∧ k < 8 ∧
          bs.getD i 0 &&& (1 <<< (7 - k)) ≠ 0 ∧ n = (j + i) * 8 + k + 1
  | [], j => by simp [decodeFrom]
  | b :: rest, j => by
    rw [decodeFrom, List.mem_append, mem_decodeByte, mem_decodeFrom rest (j + 1)]
    constructor
    · rintro (⟨k, hk, hbit, hn⟩ | ⟨i, k, hi, hk, hbit, hn⟩)
      · exact ⟨0, k, by simp, hk, by simpa using hbit, by omega⟩
      · exact ⟨i + 1, k, by simpa using hi, hk, by simpa using hbit, by omega⟩
    · rintro ⟨i, k, hi, hk, hbit, hn⟩
      cases i with
      | zero => exact Or.inl ⟨k, hk, by simpa using hbit, by omega⟩
      | succ i' =>
        exact Or.inr ⟨i', k, by simpa using hi, hk, by simpa using hbit, by omega⟩

theorem decodeByte_zero {i : Nat} : decodeByte i 0 = [] := by
  simp [decodeByte, Nat.zero_and]

theorem decodeFrom_replicate_zero :
    ∀ (m j : Nat) (bs : List Nat),
      decodeFrom j (List.replicate m 0 ++ bs) = decodeFrom (j + m) bs
  | 0, j, bs => by simp
  | m + 1, j, bs => by
    rw [List.replicate_succ, List.cons_append, decodeFrom, decodeByte_zero,
      decodeFrom_replicate_zero m (j + 1) bs]
    simp only [List.nil_append]
    congr 1
    omega

theorem filterMap_ite {α β : Type} (p : α → Prop) [DecidablePred p] (f : α → β) :
    ∀ l : List α,
      (l.filterMap fun k => if p k then some (f k) else none) =
        (l.filter fun k => decide (p k)).map f := by
  intro l
  induction l with
  | nil => rfl
  | cons x xs ih => by_cases hx : p x <;> simp [hx, ih]

theorem decodeByte_single {i r : Nat} (hr : r < 8) :
    decodeByte i (1 <<< (7 - r)) = [i * 8 + r + 1] := by
  rw [decodeByte, filterMap_ite]
  have hfilter :
      ((List.range 8).filter fun k => decide (1 <<< (7 - r) &&& (1 <<< (7 - k)) ≠ 0)) = [r] := by
    interval_cases r <;> decide
  rw [hfilter]
  rfl

theorem decode_single {n : Nat} (hn : 1 ≤ n) :
    decode_port_list (List.replicate ((n - 1) / 8) 0 ++ [1 <<< (7 - (n - 1) % 8)]) = [n] := by
  rw [decode_port_list, decodeFrom_replicate_zero, decodeFrom,
    decodeByte_single (Nat.mod_lt _ (by norm_num)), decodeFrom]
  simp only [List.append_nil, List.cons.injEq, and_true]
  omega

/-! ## Claim theorems -/

/-- C2: `decode_port_list` decodes exactly the 1-based indices
`i*8+k+1` of the set bits (bit 0 = most significant) of the byte
sequence; the empty sequence decodes to nothing, byte 0xFF decodes to
ports 1 through 8, and for every `n ≥ 1` the byte string with only port
`n`'s bit set decodes to exactly `[n]`. -/
theorem C2_bitmask_decoder :
    (∀ (bytes : List Nat) (n : Nat),
        n ∈ decode_port_list bytes ↔
          ∃ i k, i < bytes.length ∧ k < 8 ∧
            bytes.getD i 0 &&& (1 <<< (7 - k)) ≠ 0 ∧ n = i * 8 + k + 1) ∧
    decode_port_list [] = [] ∧
    decode_port_list [255] = [1, 2, 3, 4, 5, 6, 7, 8] ∧
    (∀ n : Nat, 1 ≤ n →
      decode_port_list (List.replicate ((n - 1) / 8) 0 ++ [1 <<< (7 - (n - 1) % 8)]) = [n]) := by
  refine ⟨?_, rfl, by decide, fun n hn => decode_single hn⟩
  intro bytes n
  simpa using mem_decodeFrom (n := n) bytes 0

/-- Witness for C2: instantiating the singleton rule at n = 12 gives the
byte string `[0x00, 0x10]`, which decodes to exactly `[12]`. -/
theorem C2_bitmask_decoder_witness :
    1 ≤ 12 ∧ decode_port_list [0, 16] = [12] := by
  refine ⟨by norm_num, ?_⟩
  have h := C2_bitmask_decoder.2.2.2 12 (by norm_num)
  simpa using h

/-- C1: the compression step extends the open range exactly on a full
configuration match at `end + 1`, emits and reopens on any mismatch or
gap, opens on the first port, and the trailing emit flushes the still-open
range; ports {1,2,4} with identical configuration and no port 3 compress
to exactly the ranges [1-2] and [4-4]. -/
theorem C1_range_compressor :
    (∀ (st : CompressState) (current config : PortConfig),
        st.current_config = some current →
        configs_match current config = true →
        config.port_num = st.current_end + 1 →
        compress_step st config = { st with current_end := config.port_num }) ∧
    (∀ (st : CompressState) (current config : PortConfig),
        st.current_config = some current →
        ¬(configs_match current config = true ∧ config.port_num = st.current_end + 1) →
        compress_step st config =
          ⟨st.port_ranges ++ [emit st.current_start st.current_end current],
            some config, config.port_num, config.port_num⟩) ∧
    (∀ (st : CompressState) (config : PortConfig),
        st.current_config = none →
        compress_step st config =
          { st with
            current_config := some config,
            current_start := config.port_num,
            current_end := config.port_num }) ∧
    (∀ (st : CompressState) (current : PortConfig),
        st.current_config = some current →
        compress_finish st = st.port_ranges ++ [emit st.current_start st.current_end current]) ∧
    (∀ (a : Option String) (pv : Nat) (vm uv : Finset Nat) (li : Option LacpInfo),
        compress_ranges
            [⟨1, a, pv, vm, uv, li⟩, ⟨2, a, pv, vm, uv, li⟩, ⟨4, a, pv, vm, uv, li⟩] =
          [⟨1, 2, a, pv, vm, uv, li⟩, ⟨4, 4, a, pv, vm, uv, li⟩]) := by
  refine ⟨?_, ?_, ?_, ?_, ?_⟩
  · intro st current config h hm hp
    simp only [compress_step, h]
    rw [if_pos (by simp [hm, hp])]
  · intro st current config h hn
    simp only [compress_step, h]
    rw [if_neg (by simpa [Bool.and_eq_true, beq_iff_eq] using hn)]
  · intro st config h
    simp only [compress_step, h]
  · intro st current h
    simp only [compress_finish, h]
  · intro a pv vm uv li
    simp [compress_ranges, List.foldl, compress_step, compress_finish, configs_match, emit]

/-- Witness for C1: a concrete extension step and the concrete gap
instance with the all-default configuration. -/
theorem C1_range_compressor_witness :
    compress_step ⟨[], some ⟨1, none, 0, ∅, ∅, none⟩, 1, 1⟩ ⟨2, none, 0, ∅, ∅, none⟩ =
        ⟨[], some ⟨1, none, 0, ∅, ∅, none⟩, 1, 2⟩ ∧
      compress_ranges
          [⟨1, none, 0, ∅, ∅, none⟩, ⟨2, none, 0, ∅, ∅, none⟩, ⟨4, none, 0, ∅, ∅, none⟩] =
        [⟨1, 2, none, 0, ∅, ∅, none⟩, ⟨4, 4, none, 0, ∅, ∅, none⟩] := by
  constructor
  · exact C1_range_compressor.1 _ _ _ rfl (by decide) rfl
  · exact C1_range_compressor.2.2.2.2 none 0 ∅ ∅ none

/-! ## Helper notions for the maximal-merge invariant -/

/-- Representative-configuration equality of two emitted ranges (the
fields `configs_match` compares, read off the ranges). -/
def range_configs_match (r s : PortRange) : Bool :=
  r.pvid == s.pvid &&
  r.vlan_memberships == s.vlan_memberships &&
  r.untagged_vlans == s.untagged_vlans &&
  r.alias' == s.alias' &&
  r.lacp_info == s.lacp_info

/-- Configuration equality between an emitted range and a pending
representative. -/
def configs_match_range (r : PortRange) (c : PortConfig) : Bool :=
  r.pvid == c.pvid &&
  r.vlan_memberships == c.vlan_memberships &&
  r.untagged_vlans == c.untagged_vlans &&
  r.alias' == c.alias' &&
  r.lacp_info == c.lacp_info

/-- No two consecutive emitted ranges are both configuration-equal and
port-contiguous. -/
def ranges_ok (l : List PortRange) : Prop :=
  List.Chain'
    (fun r s => ¬(range_configs_match r s = true ∧ s.first_port = r.last_port + 1)) l

/-- Loop invariant of the compression pass: the emitted list satisfies
`ranges_ok`, an empty open slot means nothing was emitted yet, and the
open range was opened against the last emitted range by a mismatch or
gap. -/
def compress_inv (st : CompressState) : Prop :=
  ranges_ok st.port_ranges ∧
  (st.current_config = none → st.port_ranges = []) ∧
  (∀ current, st.current_config = some current →
    ∀ last ∈ st.port_ranges.getLast?,
      ¬(configs_match_range last current = true ∧ st.current_start = last.last_port + 1))

theorem range_configs_match_emit (r : PortRange) (s e : Nat) (c : PortConfig) :
    range_configs_match r (emit s e c) = configs_match_range r c := rfl

theorem configs_match_range_emit (s e : Nat) (a b : PortConfig) :
    configs_match_range (emit s e a) b = configs_match a b := rfl

theorem ranges_ok_append_inv {l : List PortRange} {s e : Nat} {c : PortConfig}
    (hl : ranges_ok l)
    (hlast : ∀ last ∈ l.getLast?,
      ¬(configs_match_range last c = true ∧ s = last.last_port + 1)) :
    ranges_ok (l ++ [emit s e c]) := by
  rw [ranges_ok, List.chain'_append]
  refine ⟨hl, List.chain'_singleton _, ?_⟩
  intro x hx y hy
  simp only [List.head?_cons, Option.mem_def, Option.some.injEq] at hy
  subst hy
  rw [range_configs_match_emit]
  exact hlast x hx

theorem compress_inv_step {st : CompressState} (config : PortConfig)
    (h : compress_inv st) : compress_inv (compress_step st config) := by
  obtain ⟨hok, hempty, hopen⟩ := h
  match hcur : st.current_config with
  | none =>
    simp only [compress_step, hcur]
    refine ⟨hok, by simp, ?_⟩
    intro current _ last hlast
    rw [hempty hcur] at hlast
    simp at hlast
  | some current =>
    simp only [compress_step, hcur]
    by_cases hcond : (configs_match current config && config.port_num == st.current_end + 1) = true
    · rw [if_pos hcond]
      refine ⟨hok, by simp [hcur], ?_⟩
      intro c hc last hlast
      simp only [hcur, Option.some.injEq] at hc
      subst hc
      exact hopen current hcur last hlast
    · rw [if_neg hcond]
      refine ⟨ranges_ok_append_inv hok (hopen current hcur), by simp, ?_⟩
      intro c hc last hlast
      simp only [Option.some.injEq] at hc
      subst hc
      simp only [List.getLast?_concat, Option.mem_def, Option.some.injEq] at hlast
      subst hlast
      rw [configs_match_range_emit]
      simpa [Bool.and_eq_true, beq_iff_eq] using hcond

theorem compress_inv_foldl :
    ∀ (configs : List PortConfig) (st : CompressState),
      compress_inv st → compress_inv (configs.foldl compress_step st)
  | [], _, h => h
  | c :: rest, st, h =>
    compress_inv_foldl rest (compress_step st c) (compress_inv_step c h)

theorem ranges_ok_finish {st : CompressState} (h : compress_inv st) :
    ranges_ok (compress_finish st) := by
  obtain ⟨hok, _, hopen⟩ := h
  match hcur : st.current_config with
  | none => simpa only [compress_finish, hcur] using hok
  | some current =>
    simp only [compress_finish, hcur]
    exact ranges_ok_append_inv hok (hopen current hcur)

/-- C6 counterexample: ports 1 and 3 with identical configuration compress
to two consecutive emitted ranges whose representative configurations are
equal (the claim forbids any such adjacency, even across a port gap). -/
theorem C6_counterexample :
    compress_ranges [⟨1, none, 0, ∅, ∅, none⟩, ⟨3, none, 0, ∅, ∅, none⟩] =
        [⟨1, 1, none, 0, ∅, ∅, none⟩, ⟨3, 3, none, 0, ∅, ∅, none⟩] ∧
      range_configs_match ⟨1, 1, none, 0, ∅, ∅, none⟩ ⟨3, 3, none, 0, ∅, ∅, none⟩ = true := by
  decide

/-- C6 amended: the emitted sequence never contains consecutive ranges
that are both configuration-equal and port-contiguous (the second starting
at the first's last port plus one); equal configurations may sit side by
side only across a port-number gap. -/
theorem C6_maximal_merge (port_configs : List PortConfig) :
    List.Chain'
      (fun r s => ¬(range_configs_match r s = true ∧ s.first_port = r.last_port + 1))
      (compress_ranges port_configs) := by
  exact ranges_ok_finish
    (compress_inv_foldl port_configs ⟨[], none, 0, 0⟩ ⟨List.chain'_nil, fun _ => rfl, by simp⟩)

/-- C3: whenever a port's LacpInfo carries an aggregate (tagged, untagged)
pair, the final VLAN overlay replaces the port's own sets with exactly
that pair (everything else unchanged). -/
theorem C3_trunk_overlay (pc : PortConfig) (li : LacpInfo) (tagged untagged : Finset Nat)
    (h1 : pc.lacp_info = some li) (h2 : li.agg_vlans = some (tagged, untagged)) :
    apply_lacp_overlay pc =
      { pc with vlan_memberships := tagged, untagged_vlans := untagged } := by
  simp only [apply_lacp_overlay, h1, h2]

/-- Witness for C3, the spec's instance: individually-walked tagged set
{5}, aggregate tagged set {10, 20}; the port ends with tagged set exactly
{10, 20}. -/
theorem C3_trunk_overlay_witness :
    apply_lacp_overlay ⟨7, none, 0, {5}, ∅, some ⟨2, none, some ({10, 20}, ∅)⟩⟩ =
      ⟨7, none, 0, {10, 20}, ∅, some ⟨2, none, some ({10, 20}, ∅)⟩⟩ :=
  C3_trunk_overlay _ _ _ _ rfl rfl

/-! ## Helper lemma for C4 -/

theorem lag_vlan_info_nonempty {ls : List (Nat × Nat)} {E U : List (Nat × List Nat)}
    {agg : Nat} {p : Finset Nat × Finset Nat}
    (h : lag_vlan_info ls E U agg = some p) : ¬p.1 = ∅ ∨ ¬p.2 = ∅ := by
  simp only [lag_vlan_info] at h
  split_ifs at h with h1 h2
  rw [Option.some.injEq] at h
  subst h
  exact h2

/-- C4 counterexample: an override whose source interface appears in no
VLAN bitmask attaches the empty pair `({}, {})`, and the final overlay
still replaces the target port's individually-walked tagged set {5} with
the empty set, so the port does not keep its membership as the claim
requires of an empty pair. -/
theorem C4_counterexample :
    (apply_override [] [] [] ⟨26, [21]⟩ [⟨21, none, 0, {5}, ∅, none⟩]).map apply_lacp_overlay =
      [⟨21, none, 0, ∅, ∅, some ⟨26, some "Trk26", some (∅, ∅)⟩⟩] := by
  decide

/-- C4 amended: an aggregate's pair is stored in `lag_vlan_info` only when
at least one of its sets is non-empty, so naturally resolved LacpInfo only
ever carries non-empty pairs; the final overlay replaces a port's sets
whenever any pair is present (override-synthesized empty pairs included),
and a port keeps its individually-walked membership exactly when its
LacpInfo carries no pair at all. -/
theorem C4_nonempty_pair :
    (∀ (ls : List (Nat × Nat)) (E U : List (Nat × List Nat)) (agg : Nat)
        (p : Finset Nat × Finset Nat),
        lag_vlan_info ls E U agg = some p → ¬p.1 = ∅ ∨ ¬p.2 = ∅) ∧
    (∀ (ls : List (Nat × Nat)) (names : List (Nat × String))
        (E U : List (Nat × List Nat)) (port : Nat) (li : LacpInfo)
        (q : Finset Nat × Finset Nat),
        build_lacp_info ls names E U port = some li →
        li.agg_vlans = some q → ¬q.1 = ∅ ∨ ¬q.2 = ∅) ∧
    (∀ pc : PortConfig,
        (pc.lacp_info = none ∨ ∃ li, pc.lacp_info = some li ∧ li.agg_vlans = none) →
        apply_lacp_overlay pc = pc) ∧
    (∀ (pc : PortConfig) (li : LacpInfo) (q : Finset Nat × Finset Nat),
        pc.lacp_info = some li → li.agg_vlans = some q →
        apply_lacp_overlay pc =
          { pc with vlan_memberships := q.1, untagged_vlans := q.2 }) := by
  refine ⟨fun ls E U agg p h => lag_vlan_info_nonempty h, ?_, ?_, ?_⟩
  · intro ls names E U port li q h hq
    rw [build_lacp_info] at h
    split at h
    case h_1 sel hlk =>
      by_cases hsel : sel > 0
      · rw [if_pos hsel, Option.some.injEq] at h
        subst h
        exact lag_vlan_info_nonempty hq
      · rw [if_neg hsel] at h
        exact Option.noConfusion h
    case h_2 => exact Option.noConfusion h
  · intro pc h
    rcases h with h | ⟨li, hli, hq⟩
    · simp [apply_lacp_overlay, h]
    · simp [apply_lacp_overlay, hli, hq]
  · intro pc li q hli hq
    obtain ⟨t, u⟩ := q
    simp only [apply_lacp_overlay, hli, hq]

/-- Witness for C4: the stored pair of aggregate 26 (selected by port 1,
carried in VLAN 10's egress bitmask) is non-empty through both the map and
the natural resolution; a port without a pair is untouched by the overlay;
a port with a pair has its sets replaced. -/
theorem C4_nonempty_pair_witness :
    (¬(({10} : Finset Nat), (∅ : Finset Nat)).1 = ∅ ∨
        ¬(({10} : Finset Nat), (∅ : Finset Nat)).2 = ∅) ∧
      apply_lacp_overlay ⟨5, none, 0, {7}, ∅, none⟩ = ⟨5, none, 0, {7}, ∅, none⟩ ∧
      apply_lacp_overlay ⟨5, none, 0, {7}, ∅, some ⟨2, none, some ({1, 2}, {3})⟩⟩ =
        ⟨5, none, 0, {1, 2}, {3}, some ⟨2, none, some ({1, 2}, {3})⟩⟩ := by
  refine ⟨?_, ?_, ?_⟩
  · exact C4_nonempty_pair.1 [(1, 26)] [(10, [0, 0, 0, 64])] [] 26 ({10}, ∅) (by decide)
  · exact C4_nonempty_pair.2.2.1 _ (Or.inl rfl)
  · exact C4_nonempty_pair.2.2.2 _ ⟨2, none, some ({1, 2}, {3})⟩ ({1, 2}, {3}) rfl rfl

/-! ## Helper lemmas for the override applier -/

theorem override_update_port_num (A : List (Nat × String)) (s : Nat)
    (tg ug : Finset Nat) (c : PortConfig) :
    (override_update A s tg ug c).port_num = c.port_num := rfl

theorem override_update_idem (A : List (Nat × String)) (s : Nat)
    (tg ug : Finset Nat) (c : PortConfig) :
    override_update A s tg ug (override_update A s tg ug c) =
      override_update A s tg ug c := rfl

theorem apply_lacp_overlay_port_num (c : PortConfig) :
    (apply_lacp_overlay c).port_num = c.port_num := by
  cases h : c.lacp_info with
  | none => simp [apply_lacp_overlay, h]
  | some li =>
    cases hq : li.agg_vlans with
    | none => simp [apply_lacp_overlay, h, hq]
    | some q =>
      obtain ⟨a, b⟩ := q
      simp [apply_lacp_overlay, h, hq]

theorem find_update_first {f : PortConfig → PortConfig}
    (hf : ∀ c, (f c).port_num = c.port_num) (t t' : Nat) :
    ∀ l : List PortConfig,
      (update_first (fun c => c.port_num == t') f l).find? (fun c => c.port_num == t) =
        if t' = t then (l.find? (fun c => c.port_num == t)).map f
        else l.find? (fun c => c.port_num == t)
  | [] => by by_cases h : t' = t <;> simp [update_first, h]
  | x :: xs => by
    rw [update_first]
    by_cases hx : x.port_num = t'
    · rw [if_pos (by simpa using hx)]
      by_cases htt : t' = t
      · subst htt
        rw [if_pos rfl, List.find?_cons_of_pos _ (by simp [hf, hx]),
          List.find?_cons_of_pos _ (by simp [hx]), Option.map_some']
      · rw [if_neg htt, List.find?_cons_of_neg _ (by simp [hf, hx, htt]),
          List.find?_cons_of_neg _ (by simp [hx, htt])]
    · rw [if_neg (by simpa using hx)]
      by_cases hxt : x.port_num = t
      · have htt : ¬t' = t := fun h => hx (h ▸ hxt)
        rw [if_neg htt, List.find?_cons_of_pos _ (by simp [hxt]),
          List.find?_cons_of_pos _ (by simp [hxt])]
      · rw [List.find?_cons_of_neg _ (by simp [hxt]),
          List.find?_cons_of_neg _ (by simp [hxt]),
          find_update_first hf t t' xs]

theorem find_fold_targets (A : List (Nat × String)) (s : Nat)
    (tg ug : Finset Nat) (t : Nat) :
    ∀ (targets : List Nat) (l : List PortConfig),
      ((targets.foldl
          (fun cfgs target =>
            update_first (fun c => c.port_num == target)
              (override_update A s tg ug) cfgs)
          l).find? (fun c => c.port_num == t)) =
        if t ∈ targets then
          (l.find? (fun c => c.port_num == t)).map (override_update A s tg ug)
        else l.find? (fun c => c.port_num == t)
  | [], l => by simp
  | t' :: rest, l => by
    rw [List.foldl_cons, find_fold_targets A s tg ug t rest,
      find_update_first (override_update_port_num A s tg ug) t t' l]
    by_cases htt : t' = t
    · subst htt
      rw [if_pos (List.mem_cons_self _ _)]
      by_cases hmem : t' ∈ rest
      · rw [if_pos hmem, if_pos rfl]
        cases l.find? (fun c => c.port_num == t') <;>
          simp [override_update_idem]
      · rw [if_neg hmem, if_pos rfl]
    · by_cases hmem : t ∈ rest
      · rw [if_pos hmem, if_neg htt, if_pos (List.mem_cons_of_mem _ hmem)]
      · rw [if_neg hmem, if_neg htt,
          if_neg (by simp only [List.mem_cons, not_or]; exact ⟨fun h => htt h.symm, hmem⟩)]

theorem find_map_overlay (t : Nat) :
    ∀ l : List PortConfig,
      (l.map apply_lacp_overlay).find? (fun c => c.port_num == t) =
        (l.find? (fun c => c.port_num == t)).map apply_lacp_overlay
  | [] => rfl
  | x :: xs => by
    by_cases hx : x.port_num = t
    · rw [List.map_cons, List.find?_cons_of_pos _ (by simp [apply_lacp_overlay_port_num, hx]),
        List.find?_cons_of_pos _ (by simp [hx]), Option.map_some']
    · rw [List.map_cons, List.find?_cons_of_neg _ (by simp [apply_lacp_overlay_port_num, hx]),
        List.find?_cons_of_neg _ (by simp [hx]), find_map_overlay t xs]

/-- C5: for a target port of an override, the port configuration found
after override application and the final VLAN overlay carries the override
source's fetched alias, the synthetic `Trk<id>` LacpInfo with the pair
computed from the VLAN bitmasks, and (through the overlay) exactly that
pair as its VLAN sets — not the originally resolved values. -/
theorem C5_override_application (E U : List (Nat × List Nat))
    (A : List (Nat × String)) (o : LacpOverride) (t : Nat)
    (configs : List PortConfig) (c : PortConfig)
    (ht : t ∈ o.target_ports)
    (hc : configs.find? (fun c => c.port_num == t) = some c) :
    ((apply_override E U A o configs).map apply_lacp_overlay).find?
        (fun c => c.port_num == t) =
      some
        { c with
          alias' := A.lookup o.source_interface,
          vlan_memberships := vlansContaining o.source_interface E,
          untagged_vlans := vlansContaining o.source_interface U,
          lacp_info := some
            { selected_agg_id := o.source_interface,
              agg_name := some ("Trk" ++ toString o.source_interface),
              agg_vlans := some (vlansContaining o.source_interface E,
                vlansContaining o.source_interface U) } } := by
  rw [apply_override, find_map_overlay, find_fold_targets, if_pos ht, hc,
    Option.map_some', Option.map_some']
  rfl

/-- Witness for C5, the spec's `26:21` precedence instance: port 21 had a
naturally resolved alias and LacpInfo; after the override from interface
26 (present in the egress bitmasks of VLANs 10 and 20) its final alias
and LacpInfo are interface 26's computed values. -/
theorem C5_override_application_witness :
    ((apply_override [(10, [0, 0, 0, 64]), (20, [0, 0, 0, 64])] []
            [(26, "trunk to core")] ⟨26, [21]⟩
            [⟨21, some "old-alias", 7, {5}, {7}, some ⟨3, some "nat", some ({9}, ∅)⟩⟩]).map
          apply_lacp_overlay).find? (fun c => c.port_num == 21) =
      some ⟨21, some "trunk to core", 7, {10, 20}, ∅,
        some ⟨26, some "Trk26", some ({10, 20}, ∅)⟩⟩ := by
  have h := C5_override_application [(10, [0, 0, 0, 64]), (20, [0, 0, 0, 64])] []
    [(26, "trunk to core")] ⟨26, [21]⟩ 21
    [⟨21, some "old-alias", 7, {5}, {7}, some ⟨3, some "nat", some ({9}, ∅)⟩⟩]
    ⟨21, some "old-alias", 7, {5}, {7}, some ⟨3, some "nat", some ({9}, ∅)⟩⟩
    (by decide) (by decide)
  exact h.trans (by decide)

/-! ## Helper lemmas for override parsing -/

theorem mapM_isSome {f : List Char → Option Nat} :
    ∀ {l : List (List Char)} {l' : List Nat},
      l.mapM f = some l' → ∀ x ∈ l, (f x).isSome
  | [], _, _, x, hx => absurd hx (List.not_mem_nil x)
  | a :: as, l', h, x, hx => by
    rw [List.mapM_cons] at h
    simp only [Option.bind_eq_bind, Option.bind_eq_some, Option.pure_def,
      Option.some.injEq] at h
    obtain ⟨y, hy, ys, hys, _⟩ := h
    rcases List.mem_cons.mp hx with hxa | hxas
    · rw [hxa, hy]; rfl
    · exact mapM_isSome hys x hxas

theorem mapM_of_isSome {f : List Char → Option Nat} :
    ∀ {l : List (List Char)}, (∀ x ∈ l, (f x).isSome) → (l.mapM f).isSome
  | [], _ => rfl
  | a :: as, h => by
    rw [List.mapM_cons]
    obtain ⟨y, hy⟩ := Option.isSome_iff_exists.mp (h a (List.mem_cons_self a as))
    obtain ⟨ys, hys⟩ :=
      Option.isSome_iff_exists.mp (mapM_of_isSome fun x hx => h x (List.mem_cons_of_mem a hx))
    simp only [Option.bind_eq_bind, Option.pure_def, hy, Option.some_bind]
    rw [hys]
    rfl

/-- C7: parsing an override string succeeds exactly when it has two
colon-separated fields, a `u32`-parseable source and a comma-separated
list of `u32`-parseable targets; the batch loop drops each malformed
string individually and keeps every valid override in order, as the
concrete mixed batch shows. -/
theorem C7_override_parse :
    (∀ s : List Char,
        (∃ o, parse_lacp_override s = .ok o) ↔
          ∃ a b, split_char ':' s = [a, b] ∧ (parse_u32 a).isSome ∧
            ∀ tp ∈ split_char ',' b, (parse_u32 tp).isSome) ∧
    (∀ args : List (List Char),
        parse_overrides args =
          args.filterMap (fun s => (parse_lacp_override s).toOption)) ∧
    parse_overrides
        ["26:21,22".data, "banana".data, "30:1,x".data, "40:2".data] =
      [⟨26, [21, 22]⟩, ⟨40, [2]⟩] := by
  refine ⟨?_, ?_, by decide⟩
  · intro s
    constructor
    · rintro ⟨o, ho⟩
      rw [parse_lacp_override] at ho
      split at ho
      case h_1 a b heq =>
        refine ⟨a, b, heq, ?_, ?_⟩
        · cases hpa : parse_u32 a with
          | none => rw [hpa] at ho; exact Except.noConfusion ho
          | some n => rfl
        · cases hpa : parse_u32 a with
          | none => rw [hpa] at ho; exact Except.noConfusion ho
          | some n =>
            rw [hpa] at ho
            cases hpb : (split_char ',' b).mapM parse_u32 with
            | none => rw [hpb] at ho; exact Except.noConfusion ho
            | some l => exact mapM_isSome hpb
      case h_2 => exact Except.noConfusion ho
    · rintro ⟨a, b, heq, hpa, hpb⟩
      obtain ⟨n, hn⟩ := Option.isSome_iff_exists.mp hpa
      obtain ⟨l, hl⟩ := Option.isSome_iff_exists.mp (mapM_of_isSome hpb)
      refine ⟨⟨n, l⟩, ?_⟩
      rw [parse_lacp_override, heq]
      simp only [hn, hl]
  · have go : ∀ (args : List (List Char)) (acc : List LacpOverride),
        args.foldl
            (fun acc s =>
              match parse_lacp_override s with
              | .ok o => acc ++ [o]
              | .error _ => acc)
            acc =
          acc ++ args.filterMap (fun s => (parse_lacp_override s).toOption) := by
      intro args
      induction args with
      | nil => intro acc; simp
      | cons s rest ih =>
        intro acc
        rw [List.foldl_cons, List.filterMap_cons]
        cases h : parse_lacp_override s with
        | ok o => rw [ih, List.append_assoc]; simp [Except.toOption, h]
        | error e => rw [ih]; simp [Except.toOption, h]
    intro args
    exact go args []

/-- C8 counterexample: no device identity bypasses the interface filter —
the predicate ignores its identity argument outright, so excluded type 0
stays excluded for every identity (the function of the identity is
constantly false). -/
theorem C8_counterexample :
    is_physical_port 0 "10.1.0.23" = false ∧
      (fun ip : String => is_physical_port 0 ip) = (fun _ => false) :=
  ⟨rfl, rfl⟩

/-- C8 amended: the keep/exclude predicate is a pure function of the
interface type code alone — the device identity argument is ignored — and
it keeps exactly the 100 Mb (type 6) and 1 Gb (type 117) Ethernet types,
returning false for every other type for every device identity; no
identity bypasses the filter. -/
theorem C8_interface_filter (port_type : Nat) (ip ip' : String) :
    is_physical_port port_type ip = (port_type == 6 || port_type == 117) ∧
      is_physical_port port_type ip = is_physical_port port_type ip' :=
  ⟨rfl, rfl⟩

/-! ## Helper lemmas: the decimal rendering of a Nat is never empty -/

theorem toDigitsCore_length_le (b : Nat) :
    ∀ (f n : Nat) (l : List Char), l.length ≤ (Nat.toDigitsCore b f n l).length
  | 0, _, _ => le_refl _
  | f + 1, n, l => by
    rw [Nat.toDigitsCore]
    by_cases h : n / b = 0
    · rw [if_pos h]
      simp
    · rw [if_neg h]
      exact le_trans (by simp) (toDigitsCore_length_le b f (n / b) _)

theorem toString_nat_ne_empty (n : Nat) : toString n ≠ "" := by
  show Nat.repr n ≠ ""
  rw [Nat.repr, Nat.toDigits]
  intro h
  have hlen : (Nat.toDigitsCore 10 (n + 1) n []).length = 0 := by
    have hcong := congrArg String.length h
    simpa [List.asString, String.length] using hcong
  have hone : 1 ≤ (Nat.toDigitsCore 10 (n + 1) n []).length := by
    rw [Nat.toDigitsCore]
    by_cases hd : n / 10 = 0
    · rw [if_pos hd]
      simp
    · rw [if_neg hd]
      exact le_trans (by simp) (toDigitsCore_length_le 10 n (n / 10) _)
  omega

/-- C9 counterexample: a fetched empty-string alias for port 5 survives as
present-but-empty `some ""` in the built configuration, not as the absent
alias the claim requires. -/
theorem C9_counterexample : build_alias [(5, "")] 5 = some "" := by decide

/-- C9 amended: the built alias is absent exactly when no alias was
fetched for the port or the fetched alias equals the decimal rendering of
the port number; in particular a fetched empty string always stays
present-but-empty, never collapsing to absent. -/
theorem C9_empty_alias (port_aliases : List (Nat × String)) (port_num : Nat) :
    (build_alias port_aliases port_num = none ↔
      port_aliases.lookup port_num = none ∨
        port_aliases.lookup port_num = some (toString port_num)) ∧
    (port_aliases.lookup port_num = some "" →
      build_alias port_aliases port_num = some "") := by
  constructor
  · rw [build_alias]
    cases h : port_aliases.lookup port_num with
    | none => simp [Option.filter]
    | some a =>
      by_cases ha : a = toString port_num
      · subst ha
        simp [Option.filter]
      · simp only [Option.filter, bne_iff_ne, ne_eq, ha, not_false_eq_true, if_true]
        simp [ha]
  · intro h
    rw [build_alias, h]
    have hne : ("" != toString port_num) = true := by
      rw [bne_iff_ne]
      exact fun hh => toString_nat_ne_empty port_num hh.symm
    simp [Option.filter, hne]

/-- C10: both renderers omit exactly the ranges whose first port exceeds
52; the cutoff examines only the first port, so a range starting at port
52 is rendered in full even when its last port exceeds 52, as the
concrete rows show (the HTML enumeration index advances over skipped
ranges too). -/
theorem C10_rendering_cutoff :
    (∀ (names : List (Nat × String)) (ranges : List PortRange),
        markdown_rows names ranges =
          (ranges.filter (fun r => decide (r.first_port ≤ 52))).map (md_row names)) ∧
    (∀ (names : List (Nat × String)) (i : Nat) (ranges : List PortRange),
        html_rows_from names i ranges =
          ((ranges.enumFrom i).filter (fun p => decide (p.2.first_port ≤ 52))).map
            (fun p => html_row names p.1 p.2)) ∧
    markdown_rows [] [⟨52, 60, none, 0, ∅, ∅, none⟩, ⟨53, 53, none, 0, ∅, ∅, none⟩] =
      [md_row [] ⟨52, 60, none, 0, ∅, ∅, none⟩] ∧
    html_rows [] [⟨52, 60, none, 0, ∅, ∅, none⟩, ⟨53, 53, none, 0, ∅, ∅, none⟩] =
      [html_row [] 0 ⟨52, 60, none, 0, ∅, ∅, none⟩] := by
  refine ⟨?_, ?_, rfl, rfl⟩
  · intro names ranges
    induction ranges with
    | nil => rfl
    | cons r rest ih =>
      rw [markdown_rows, ih, List.filter_cons]
      by_cases h : r.first_port ≤ 52
      · have h2 : ¬r.first_port > 52 := by omega
        simp [h, h2]
      · have h2 : r.first_port > 52 := by omega
        simp [h, h2]
  · intro names i ranges
    induction ranges generalizing i with
    | nil => rfl
    | cons r rest ih =>
      rw [html_rows_from, ih (i + 1), List.enumFrom_cons, List.filter_cons]
      by_cases h : r.first_port ≤ 52
      · have h2 : ¬r.first_port > 52 := by omega
        simp [h, h2]
      · have h2 : r.first_port > 52 := by omega
        simp [h, h2]

/-- Witness for C6: the amended invariant at the concrete gap input. -/
theorem C6_maximal_merge_witness :
    List.Chain'
      (fun r s => ¬(range_configs_match r s = true ∧ s.first_port = r.last_port + 1))
      (compress_ranges [⟨1, none, 0, ∅, ∅, none⟩, ⟨3, none, 0, ∅, ∅, none⟩]) :=
  C6_maximal_merge [⟨1, none, 0, ∅, ∅, none⟩, ⟨3, none, 0, ∅, ∅, none⟩]

/-- Witness for C7: the success characterization instantiated at the
well-formed override string `26:21,22`. -/
theorem C7_override_parse_witness :
    ∃ a b, split_char ':' "26:21,22".data = [a, b] ∧ (parse_u32 a).isSome ∧
      ∀ tp ∈ split_char ',' b, (parse_u32 tp).isSome :=
  (C7_override_parse.1 "26:21,22".data).mp ⟨⟨26, [21, 22]⟩, rfl⟩

/-- Witness for C9: a fetched empty alias on port 7 stays present-but-empty. -/
theorem C9_empty_alias_witness : build_alias [(7, "")] 7 = some "" :=
  (C9_empty_alias [(7, "")] 7).2 rfl

/-- Witness for C10: the markdown cutoff at the concrete pair of ranges
around the port-52 boundary. -/
theorem C10_rendering_cutoff_witness :
    markdown_rows [] [⟨52, 60, none, 0, ∅, ∅, none⟩, ⟨53, 53, none, 0, ∅, ∅, none⟩] =
      [md_row [] ⟨52, 60, none, 0, ∅, ∅, none⟩] :=
  C10_rendering_cutoff.2.2.1

end SwitchVlanDoc
